import Mathlib

/-!
Shallow embedding of the daily-diet backend: the `users`/`meal` data model,
the knex-level store operations behind the `/users` routes, and the
streak-scoring scan of `GET /users/metrics/`, together with proofs of the
behavioural properties of these operations.
-/

/-- A row of the `users` table: `id`, `session_id`, `name`, `email`,
`birthDate` (the parsed birth date is kept as its source string; date
parsing is opaque to every property below). -/
structure User where
  id : String
  session_id : String
  name : String
  email : String
  birthDate : String
  deriving Repr, DecidableEq

/-- A row of the `meal` table. `user_id` is nullable: the migration does not
mark it `notNullable`, and the insert writes `user?.id`. Timestamps
(`ate_at`) are kept as opaque strings. -/
structure Meal where
  id : String
  user_id : Option String
  name : String
  description : String
  ate_at : String
  is_diet : Bool
  deriving Repr, DecidableEq

/-- The relational store: both tables, rows in insertion order. -/
structure Store where
  users : List User
  meals : List Meal
  deriving Repr, DecidableEq

/-! ## The streak scan of GET /users/metrics/

The handler runs, over the caller's meals sorted by `ate_at` ascending:
`let bestScore = 0; let score = 0; for (...) { if (is_diet) score++ else
score = 0; if (score > bestScore) bestScore = score }` and then returns
`score: { bestScore: score }`. -/

/-- The loop body's first line: `if (is_diet) score++ else score = 0`. -/
def nextScore (score : Nat) (m : Meal) : Nat :=
  if m.is_diet then score + 1 else 0

/-- The loop body's second line: `if (score > bestScore) bestScore = score`. -/
def nextBest (best score : Nat) : Nat :=
  if score > best then score else best

/-- One iteration of the metrics `for` loop; the state is the pair
`(bestScore, score)`. -/
def scanStep (s : Nat × Nat) (m : Meal) : Nat × Nat :=
  (nextBest s.1 (nextScore s.2 m), nextScore s.2 m)

/-- The whole loop, started from `bestScore = 0, score = 0`. -/
def streakScan (ms : List Meal) : Nat × Nat :=
  ms.foldl scanStep (0, 0)

/-- The internal `bestScore` variable at the end of the loop. -/
def bestScore (ms : List Meal) : Nat := (streakScan ms).1

/-- The running `score` variable at the end of the loop. -/
def endScore (ms : List Meal) : Nat := (streakScan ms).2

/-- The JSON body of `GET /users/metrics/` (counts flattened; the nested
`score.bestScore` field is `scoreBestScore`). -/
structure MetricsResponse where
  mealsCount : Nat
  inDiet : Nat
  outDiet : Nat
  scoreBestScore : Nat
  deriving Repr, DecidableEq

/-- The metrics handler body, given the caller's meals sorted by `ate_at`
ascending. The returned `score.bestScore` field is assigned the loop
variable `score`, not `bestScore`, exactly as in the source. -/
def metricsHandler (sortedMeals : List Meal) : MetricsResponse :=
  { mealsCount := sortedMeals.length
  , inDiet := sortedMeals.countP (fun m => m.is_diet)
  , outDiet := sortedMeals.countP (fun m => !m.is_diet)
  , scoreBestScore := endScore sortedMeals }

/-- Specification-side notion, following the spec's words: `isRun ms n`
holds when `ms` contains a contiguous segment of `n` consecutive
diet-compliant meals. -/
def isRun (ms : List Meal) (n : Nat) : Prop :=
  ∃ pre mid post : List Meal,
    ms = pre ++ mid ++ post ∧ (∀ m ∈ mid, m.is_diet = true) ∧ mid.length = n

/-! ### Scan lemmas -/

theorem streakScan_nil : streakScan [] = (0, 0) := rfl

theorem nextBest_eq_max (best score : Nat) : nextBest best score = max best score := by
  unfold nextBest
  rw [Nat.max_def]
  split <;> split <;> omega

theorem streakScan_append (ms : List Meal) (m : Meal) :
    streakScan (ms ++ [m]) = scanStep (streakScan ms) m := by
  rw [streakScan, streakScan, List.foldl_append]
  rfl

theorem endScore_append (ms : List Meal) (m : Meal) :
    endScore (ms ++ [m]) = nextScore (endScore ms) m := by
  rw [endScore, streakScan_append]
  rfl

theorem bestScore_append (ms : List Meal) (m : Meal) :
    bestScore (ms ++ [m]) = max (bestScore ms) (endScore (ms ++ [m])) := by
  rw [bestScore, streakScan_append, endScore_append]
  show nextBest (streakScan ms).1 (nextScore (streakScan ms).2 m) = _
  rw [nextBest_eq_max]
  rfl

theorem endScore_le_bestScore (ms : List Meal) : endScore ms ≤ bestScore ms := by
  induction ms using List.reverseRecOn with
  | nil => exact Nat.le_refl 0
  | append_singleton t m ih =>
    rw [bestScore_append]
    exact le_max_right _ _

theorem bestScore_le_append (ms tail : List Meal) :
    bestScore ms ≤ bestScore (ms ++ tail) := by
  induction tail using List.reverseRecOn with
  | nil => simp
  | append_singleton t m ih =>
    rw [← List.append_assoc, bestScore_append]
    exact le_trans ih (le_max_left _ _)

theorem endScore_append_all_diet (pre mid : List Meal)
    (h : ∀ m ∈ mid, m.is_diet = true) :
    endScore (pre ++ mid) = endScore pre + mid.length := by
  induction mid using List.reverseRecOn with
  | nil => simp
  | append_singleton t m ih =>
    have hm : m.is_diet = true := h m (by simp)
    have ht : ∀ x ∈ t, x.is_diet = true := fun x hx => h x (by simp [hx])
    have h2 : nextScore (endScore (pre ++ t)) m = endScore (pre ++ t) + 1 := by
      simp [nextScore, hm]
    rw [← List.append_assoc, endScore_append, h2, ih ht]
    simp only [List.length_append, List.length_cons, List.length_nil]
    omega

theorem endScore_trailing (ms : List Meal) :
    ∃ pre mid : List Meal, ms = pre ++ mid ∧ (∀ m ∈ mid, m.is_diet = true) ∧
      mid.length = endScore ms := by
  induction ms using List.reverseRecOn with
  | nil => exact ⟨[], [], rfl, by simp, rfl⟩
  | append_singleton t m ih =>
    obtain ⟨pre, mid, heq, hall, hlen⟩ := ih
    by_cases hm : m.is_diet = true
    · refine ⟨pre, mid ++ [m], by rw [heq, List.append_assoc], ?_, ?_⟩
      · intro x hx
        rcases List.mem_append.1 hx with h1 | h1
        · exact hall x h1
        · simp at h1
          subst h1
          exact hm
      · rw [endScore_append]
        simp [nextScore, hm, hlen]
    · refine ⟨t ++ [m], [], by simp, by simp, ?_⟩
      rw [endScore_append]
      simp [nextScore, hm]

theorem isRun_bestScore (ms : List Meal) : isRun ms (bestScore ms) := by
  induction ms using List.reverseRecOn with
  | nil => exact ⟨[], [], [], rfl, by simp, rfl⟩
  | append_singleton t m ih =>
    rw [bestScore_append]
    rcases Nat.le_total (endScore (t ++ [m])) (bestScore t) with h | h
    · rw [Nat.max_eq_left h]
      obtain ⟨pre, mid, post, heq, hall, hlen⟩ := ih
      exact ⟨pre, mid, post ++ [m], by rw [heq]; simp, hall, hlen⟩
    · rw [Nat.max_eq_right h]
      obtain ⟨pre, mid, heq, hall, hlen⟩ := endScore_trailing (t ++ [m])
      exact ⟨pre, mid, [], by simp [heq], hall, hlen⟩

theorem isRun_le_bestScore (ms : List Meal) (n : Nat) (h : isRun ms n) :
    n ≤ bestScore ms := by
  obtain ⟨pre, mid, post, heq, hmid, hlen⟩ := h
  subst heq
  have h1 : mid.length ≤ endScore (pre ++ mid) := by
    rw [endScore_append_all_diet pre mid hmid]
    omega
  have h2 : endScore (pre ++ mid) ≤ bestScore (pre ++ mid) := endScore_le_bestScore _
  have h3 : bestScore (pre ++ mid) ≤ bestScore (pre ++ mid ++ post) :=
    bestScore_le_append _ _
  omega

theorem bestScore_le_length (ms : List Meal) : bestScore ms ≤ ms.length := by
  obtain ⟨pre, mid, post, heq, _, hlen⟩ := isRun_bestScore ms
  subst heq
  rw [← hlen]
  simp only [List.length_append]
  omega

theorem endScore_nil : endScore [] = 0 := rfl

theorem bestScore_nil : bestScore [] = 0 := rfl

theorem endScore_all_diet (ms : List Meal) (h : ∀ m ∈ ms, m.is_diet = true) :
    endScore ms = ms.length := by
  have h1 := endScore_append_all_diet [] ms h
  simpa [endScore_nil] using h1

theorem bestScore_all_diet (ms : List Meal) (h : ∀ m ∈ ms, m.is_diet = true) :
    bestScore ms = ms.length := by
  refine Nat.le_antisymm (bestScore_le_length ms) ?_
  have h1 : isRun ms ms.length := ⟨[], ms, [], by simp, h, rfl⟩
  exact isRun_le_bestScore ms ms.length h1

theorem bestScore_none_diet (ms : List Meal) (h : ∀ m ∈ ms, m.is_diet = false) :
    bestScore ms = 0 := by
  obtain ⟨pre, mid, post, heq, hall, hlen⟩ := isRun_bestScore ms
  cases mid with
  | nil => simpa using hlen.symm
  | cons x xs =>
    have h1 : x.is_diet = true := hall x (by simp)
    have h2 : x.is_diet = false := h x (by rw [heq]; simp)
    rw [h1] at h2
    cases h2

theorem bestScore_eq_length_iff (ms : List Meal) :
    bestScore ms = ms.length ↔ ∀ m ∈ ms, m.is_diet = true := by
  constructor
  · intro h
    obtain ⟨pre, mid, post, heq, hall, hlen⟩ := isRun_bestScore ms
    have hl : pre.length + (mid.length + post.length) = ms.length := by
      rw [heq]
      simp
    have hpre : pre.length = 0 := by omega
    have hpost : post.length = 0 := by omega
    rw [List.length_eq_zero] at hpre hpost
    subst hpre hpost
    simp at heq
    subst heq
    exact hall
  · intro h
    exact bestScore_all_diet ms h

/-! ## Store operations (the /users routes)

Randomly generated UUIDs (`randomUUID()`) are passed in as parameters.
The middleware `checkSessionIdExists` is its own file, which is not part of
the sources here; it is modelled from the spec (see `resolveUser` and the
operations below). -/

/-- The session resolver `knex('users').where('session_id', sessionId).first()`. -/
def resolveUser (st : Store) (sid : String) : Option User :=
  st.users.find? (fun u => u.session_id == sid)

/-- The `where({ id, user_id })` filter shared by get/delete/patch on
`/meal/:id`. -/
def mealMatch (id uid : String) (m : Meal) : Bool :=
  m.id == id && m.user_id == some uid

/-- POST /users/ handler: inserts a user row and replies 201, setting the
session cookie (`registrationCookie`). -/
def createUser (st : Store) (newId sid name email birthDate : String) : Store :=
  { st with users := st.users ++ [⟨newId, sid, name, email, birthDate⟩] }

/-- The cookie attributes set on registration:
`reply.cookie('sessionId', sessionId, { path: '/', maxAge: 1000 * 60 * 60 * 24 * 7 })`. -/
structure Cookie where
  name : String
  value : String
  path : String
  maxAge : Nat
  deriving Repr, DecidableEq

def registrationCookie (sessionId : String) : Cookie :=
  { name := "sessionId"
  , value := sessionId
  , path := "/"
  , maxAge := 1000 * 60 * 60 * 24 * 7 }

/-- Modelled from the spec: the middleware `checkSessionIdExists`
(`src/middlewares/check-session-id-exists.ts`, not among the sources)
"short-circuit[s] before the handler body" on an "absent or unresolvable
session cookie" (spec section 7(b)). Each guarded operation below therefore
runs its handler only when `resolveUser` succeeds, and otherwise leaves the
store unchanged and replies with an authorization error (modelled as the
`none` / 401 branch). -/
def sessionResolves (st : Store) (sid : String) : Bool :=
  (resolveUser st sid).isSome

/-- POST /users/meal/ handler: inserts a meal row owned by the resolved
user (`user_id: user?.id`) and replies 201. -/
def createMeal (st : Store) (sid newId name description ate_at : String)
    (is_diet : Bool) : Store :=
  match resolveUser st sid with
  | none => st
  | some u =>
    { st with meals := st.meals ++ [⟨newId, some u.id, name, description, ate_at, is_diet⟩] }

/-- GET /users/meal/:id handler. `none` is the middleware 401
short-circuit; `some r` is a 200 reply whose body is `{ meal: r }`. -/
def getMealById (st : Store) (sid id : String) : Option (Option Meal) :=
  match resolveUser st sid with
  | none => none
  | some u => some (st.meals.find? (mealMatch id u.id))

/-- DELETE /users/meal/:id handler: removes every row matching
`{ id, user_id }` and replies 204 unconditionally (401 when the middleware
short-circuits). Returns (new store, HTTP status). -/
def deleteMeal (st : Store) (sid id : String) : Store × Nat :=
  match resolveUser st sid with
  | none => (st, 401)
  | some u =>
    ({ st with meals := st.meals.filter (fun m => !(mealMatch id u.id m)) }, 204)

/-- JS `x || y` on a nullable string field: both `null` and the empty
string are falsy. -/
def strOr (v : Option String) (old : String) : String :=
  match v with
  | none => old
  | some s => if s = "" then old else s

/-- JS `is_diet || meal?.is_diet`: both `null` and `false` are falsy. -/
def boolOr (v : Option Bool) (old : Bool) : Bool :=
  match v with
  | none => old
  | some b => if b then true else old

/-- JS `ate_at ? new Date(ate_at) : meal?.ate_at` (date parsing kept as the
string itself). -/
def dateOr (v : Option String) (old : String) : String :=
  match v with
  | none => old
  | some s => if s = "" then old else s

/-- The `.update({...})` payload of PATCH /users/meal/:id applied to a
matching row `m`; the fallback values come from the prior read `old`. -/
def mergeMeal (old : Meal) (name description ate_at : Option String)
    (is_diet : Option Bool) (m : Meal) : Meal :=
  { m with
    name := strOr name old.name
    description := strOr description old.description
    ate_at := dateOr ate_at old.ate_at
    is_diet := boolOr is_diet old.is_diet }

/-- The value of the PATCH response body's `meal` field: the handler
returns whatever `knex(...).update(...)` resolved to, which is the number
of affected rows, not a meal record. -/
inductive PatchMealValue where
  | row (m : Meal)
  | rowsAffected (n : Nat)
  deriving Repr, DecidableEq

/-- PATCH /users/meal/:id handler: reads the prior row (`.first()`),
updates every row matching `{ id, user_id }` with the merged payload, and
returns `{ meal }` where `meal` now holds the update's affected-row count.
Returns (new store, HTTP status, response body's `meal` field). -/
def updateMeal (st : Store) (sid id : String)
    (name description ate_at : Option String) (is_diet : Option Bool) :
    Store × Nat × Option PatchMealValue :=
  match resolveUser st sid with
  | none => (st, 401, none)
  | some u =>
    match st.meals.find? (mealMatch id u.id) with
    | none => (st, 200, some (.rowsAffected 0))
    | some old =>
      ({ st with meals := st.meals.map (fun m =>
          if mealMatch id u.id m then mergeMeal old name description ate_at is_diet m
          else m) },
       200,
       some (.rowsAffected (st.meals.countP (mealMatch id u.id))))

/-- Store states reachable through the route handlers from an empty
database. -/
inductive Reachable : Store → Prop where
  | init : Reachable ⟨[], []⟩
  | step_createUser (st : Store) (newId sid name email birthDate : String) :
      Reachable st → Reachable (createUser st newId sid name email birthDate)
  | step_createMeal (st : Store) (sid newId name description ate_at : String)
      (is_diet : Bool) :
      Reachable st → Reachable (createMeal st sid newId name description ate_at is_diet)
  | step_updateMeal (st : Store) (sid id : String)
      (name description ate_at : Option String) (is_diet : Option Bool) :
      Reachable st → Reachable (updateMeal st sid id name description ate_at is_diet).1
  | step_deleteMeal (st : Store) (sid id : String) :
      Reachable st → Reachable (deleteMeal st sid id).1

/-- Every meal row references an existing user through a non-null
`user_id`. -/
def mealsOwned (st : Store) : Prop :=
  ∀ m ∈ st.meals, ∃ u ∈ st.users, m.user_id = some u.id

/-! ### Operation equations and basic lemmas -/

theorem createMeal_unresolved (st : Store) (sid newId name description ate_at : String)
    (is_diet : Bool) (hu : resolveUser st sid = none) :
    createMeal st sid newId name description ate_at is_diet = st := by
  simp only [createMeal, hu]

theorem createMeal_resolved (st : Store) (sid newId name description ate_at : String)
    (is_diet : Bool) (u : User) (hu : resolveUser st sid = some u) :
    createMeal st sid newId name description ate_at is_diet =
      { st with meals :=
          st.meals ++ [⟨newId, some u.id, name, description, ate_at, is_diet⟩] } := by
  simp only [createMeal, hu]

theorem getMealById_resolved (st : Store) (sid id : String) (u : User)
    (hu : resolveUser st sid = some u) :
    getMealById st sid id = some (st.meals.find? (mealMatch id u.id)) := by
  simp only [getMealById, hu]

theorem deleteMeal_resolved (st : Store) (sid id : String) (u : User)
    (hu : resolveUser st sid = some u) :
    deleteMeal st sid id =
      ({ st with meals := st.meals.filter (fun m => !(mealMatch id u.id m)) }, 204) := by
  simp only [deleteMeal, hu]

theorem deleteMeal_unresolved (st : Store) (sid id : String)
    (hu : resolveUser st sid = none) :
    deleteMeal st sid id = (st, 401) := by
  simp only [deleteMeal, hu]

theorem updateMeal_unresolved (st : Store) (sid id : String)
    (name description ate_at : Option String) (is_diet : Option Bool)
    (hu : resolveUser st sid = none) :
    updateMeal st sid id name description ate_at is_diet = (st, 401, none) := by
  simp only [updateMeal, hu]

theorem updateMeal_not_found (st : Store) (sid id : String)
    (name description ate_at : Option String) (is_diet : Option Bool) (u : User)
    (hu : resolveUser st sid = some u)
    (hfind : st.meals.find? (mealMatch id u.id) = none) :
    updateMeal st sid id name description ate_at is_diet =
      (st, 200, some (.rowsAffected 0)) := by
  simp only [updateMeal, hu, hfind]

theorem updateMeal_found (st : Store) (sid id : String)
    (name description ate_at : Option String) (is_diet : Option Bool) (u : User)
    (old : Meal) (hu : resolveUser st sid = some u)
    (hfind : st.meals.find? (mealMatch id u.id) = some old) :
    updateMeal st sid id name description ate_at is_diet =
      ({ st with meals := st.meals.map (fun m =>
          if mealMatch id u.id m then mergeMeal old name description ate_at is_diet m
          else m) },
       200,
       some (.rowsAffected (st.meals.countP (mealMatch id u.id)))) := by
  simp only [updateMeal, hu, hfind]

theorem mealMatch_merge (id uid : String) (old m : Meal)
    (name description ate_at : Option String) (is_diet : Option Bool) :
    mealMatch id uid (mergeMeal old name description ate_at is_diet m) =
      mealMatch id uid m := rfl

theorem mergeMeal_user_id (old m : Meal) (name description ate_at : Option String)
    (is_diet : Option Bool) :
    (mergeMeal old name description ate_at is_diet m).user_id = m.user_id := rfl

theorem updateMeal_find? (st : Store) (sid id : String) (u : User) (old : Meal)
    (name description ate_at : Option String) (is_diet : Option Bool)
    (hu : resolveUser st sid = some u)
    (hfind : st.meals.find? (mealMatch id u.id) = some old) :
    (updateMeal st sid id name description ate_at is_diet).1.meals.find?
        (mealMatch id u.id)
      = some (mergeMeal old name description ate_at is_diet old) := by
  rw [updateMeal_found st sid id name description ate_at is_diet u old hu hfind]
  show (st.meals.map _).find? _ = _
  rw [List.find?_map]
  have hcomp : (mealMatch id u.id) ∘ (fun m =>
      if mealMatch id u.id m then mergeMeal old name description ate_at is_diet m
      else m) = mealMatch id u.id := by
    funext m
    by_cases h : mealMatch id u.id m
    · simp [h, mealMatch_merge]
    · simp [h]
  rw [hcomp, hfind]
  have hmatch : mealMatch id u.id old = true := List.find?_some hfind
  simp [hmatch]

theorem updateMeal_users (st : Store) (sid id : String)
    (name description ate_at : Option String) (is_diet : Option Bool) :
    (updateMeal st sid id name description ate_at is_diet).1.users = st.users := by
  cases hu : resolveUser st sid with
  | none => rw [updateMeal_unresolved st sid id name description ate_at is_diet hu]
  | some u =>
    cases hfind : st.meals.find? (mealMatch id u.id) with
    | none => rw [updateMeal_not_found st sid id name description ate_at is_diet u hu hfind]
    | some old => rw [updateMeal_found st sid id name description ate_at is_diet u old hu hfind]

theorem deleteMeal_users (st : Store) (sid id : String) :
    (deleteMeal st sid id).1.users = st.users := by
  cases hu : resolveUser st sid with
  | none => rw [deleteMeal_unresolved st sid id hu]
  | some u => rw [deleteMeal_resolved st sid id u hu]

theorem resolveUser_deleteMeal (st : Store) (sid sid2 id : String) :
    resolveUser (deleteMeal st sid2 id).1 sid = resolveUser st sid := by
  simp only [resolveUser, deleteMeal_users]

theorem mealsOwned_createUser (st : Store) (newId sid name email birthDate : String)
    (h : mealsOwned st) :
    mealsOwned (createUser st newId sid name email birthDate) := by
  intro m hm
  obtain ⟨u, hu, heq⟩ := h m hm
  exact ⟨u, List.mem_append.2 (Or.inl hu), heq⟩

theorem mealsOwned_createMeal (st : Store) (sid newId name description ate_at : String)
    (is_diet : Bool) (h : mealsOwned st) :
    mealsOwned (createMeal st sid newId name description ate_at is_diet) := by
  cases hu : resolveUser st sid with
  | none =>
    rw [createMeal_unresolved st sid newId name description ate_at is_diet hu]
    exact h
  | some u =>
    rw [createMeal_resolved st sid newId name description ate_at is_diet u hu]
    intro m hm
    rcases List.mem_append.1 hm with h1 | h1
    · exact h m h1
    · have h2 : m = ⟨newId, some u.id, name, description, ate_at, is_diet⟩ := by
        simpa using h1
      subst h2
      exact ⟨u, List.mem_of_find?_eq_some hu, rfl⟩

theorem mealsOwned_updateMeal (st : Store) (sid id : String)
    (name description ate_at : Option String) (is_diet : Option Bool)
    (h : mealsOwned st) :
    mealsOwned (updateMeal st sid id name description ate_at is_diet).1 := by
  cases hu : resolveUser st sid with
  | none =>
    rw [updateMeal_unresolved st sid id name description ate_at is_diet hu]
    exact h
  | some u =>
    cases hfind : st.meals.find? (mealMatch id u.id) with
    | none =>
      rw [updateMeal_not_found st sid id name description ate_at is_diet u hu hfind]
      exact h
    | some old =>
      rw [updateMeal_found st sid id name description ate_at is_diet u old hu hfind]
      intro m hm
      obtain ⟨m0, hm0, heq⟩ := List.mem_map.1 hm
      obtain ⟨w, hw, hid⟩ := h m0 hm0
      refine ⟨w, hw, ?_⟩
      subst heq
      by_cases hmm : mealMatch id u.id m0
      · simp only [hmm, if_true, mergeMeal_user_id]
        exact hid
      · simp only [hmm, if_false]
        exact hid

theorem mealsOwned_deleteMeal (st : Store) (sid id : String) (h : mealsOwned st) :
    mealsOwned (deleteMeal st sid id).1 := by
  cases hu : resolveUser st sid with
  | none =>
    rw [deleteMeal_unresolved st sid id hu]
    exact h
  | some u =>
    rw [deleteMeal_resolved st sid id u hu]
    intro m hm
    exact h m (List.mem_filter.1 hm).1

theorem countP_mealMatch_le_one (meals : List Meal) (id uid : String)
    (hnodup : (meals.map Meal.id).Nodup) :
    meals.countP (mealMatch id uid) ≤ 1 := by
  have h1 : meals.countP (mealMatch id uid) ≤ meals.countP (fun m => m.id == id) := by
    refine List.countP_mono_left (fun m _ hm => ?_)
    simp only [mealMatch, Bool.and_eq_true] at hm
    exact hm.1
  have h2 : meals.countP (fun m => m.id == id) = (meals.map Meal.id).count id := by
    rw [List.count_eq_countP, List.countP_map]
    rfl
  have h3 : (meals.map Meal.id).count id ≤ 1 :=
    List.nodup_iff_count_le_one.1 hnodup id
  omega

/-! ## Concrete fixtures for witnesses and counterexamples -/

def wUser : User := ⟨"u1", "s1", "alice", "alice@mail", "1990-01-01"⟩

def wUserB : User := ⟨"u2", "s2", "bob", "bob@mail", "1991-01-01"⟩

def wMeal : Meal := ⟨"m1", some "u1", "lunch", "rice", "2024-01-01", true⟩

def wMealOff : Meal := ⟨"m2", some "u1", "snack", "cake", "2024-01-02", false⟩

def wMealB : Meal := ⟨"m3", some "u2", "dinner", "fish", "2024-01-03", true⟩

def wStore : Store := ⟨[wUser, wUserB], [wMeal, wMealOff, wMealB]⟩

/-! ## Claims -/

/-- C1: for every meal sequence, the `score.bestScore` field of the
GET /users/metrics/ response is the running streak at the end of the
left-to-right scan (`endScore`), and it is not the internally computed
maximum: on `[wMeal, wMealOff]` the response field is 0 while the internal
`bestScore` is 1. -/
theorem c1_response_reports_running_streak :
    (∀ ms : List Meal, (metricsHandler ms).scoreBestScore = endScore ms) ∧
    (metricsHandler [wMeal, wMealOff]).scoreBestScore = 0 ∧
    bestScore [wMeal, wMealOff] = 1 :=
  ⟨fun _ => rfl, by decide, by decide⟩

/-- C2: the internal best value of the scan equals the maximum run-length
of consecutive diet-compliant meals: it is attained by some contiguous
all-compliant segment and bounds the length of every such segment; it is 0
for the empty sequence, equals the total count when every meal is
compliant, and is 0 when no meal is compliant. -/
theorem c2_best_is_max_run (ms : List Meal) :
    isRun ms (bestScore ms) ∧
    (∀ n, isRun ms n → n ≤ bestScore ms) ∧
    bestScore [] = 0 ∧
    ((∀ m ∈ ms, m.is_diet = true) → bestScore ms = ms.length) ∧
    ((∀ m ∈ ms, m.is_diet = false) → bestScore ms = 0) :=
  ⟨isRun_bestScore ms, fun n => isRun_le_bestScore ms n, bestScore_nil,
   bestScore_all_diet ms, bestScore_none_diet ms⟩

theorem c2_witness : isRun [wMeal] (bestScore [wMeal]) ∧ bestScore [wMeal] = 1 :=
  ⟨(c2_best_is_max_run [wMeal]).1, by decide⟩

/-- C3: for every meal sequence, the best streak is at least the running
streak at the end of the scan, and the best streak equals the total meal
count iff every meal is diet-compliant. -/
theorem c3_best_ge_running_and_total_iff (ms : List Meal) :
    endScore ms ≤ bestScore ms ∧
    (bestScore ms = ms.length ↔ ∀ m ∈ ms, m.is_diet = true) :=
  ⟨endScore_le_bestScore ms, bestScore_eq_length_iff ms⟩

theorem c3_witness :
    endScore [wMeal, wMealOff] ≤ bestScore [wMeal, wMealOff] :=
  (c3_best_ge_running_and_total_iff [wMeal, wMealOff]).1

/-- C4: on a PATCH of an owned meal, every request-body field that is null
or false-equivalent (null or "" for the strings; null or false for the
diet flag) is stored as the previously stored value of that field, and a
request with `is_diet = false` is indistinguishable from one omitting the
field: the whole operation result is equal. -/
theorem c4_falsy_fields_keep_previous (st : Store) (sid id : String) (u : User)
    (old stored : Meal) (name description ate_at : Option String)
    (is_diet : Option Bool)
    (hu : resolveUser st sid = some u)
    (hold : st.meals.find? (mealMatch id u.id) = some old)
    (hstored : (updateMeal st sid id name description ate_at is_diet).1.meals.find?
        (mealMatch id u.id) = some stored) :
    ((name = none ∨ name = some "") → stored.name = old.name) ∧
    ((description = none ∨ description = some "") →
      stored.description = old.description) ∧
    ((ate_at = none ∨ ate_at = some "") → stored.ate_at = old.ate_at) ∧
    ((is_diet = none ∨ is_diet = some false) → stored.is_diet = old.is_diet) ∧
    updateMeal st sid id name description ate_at (some false) =
      updateMeal st sid id name description ate_at none := by
  have h1 := updateMeal_find? st sid id u old name description ate_at is_diet hu hold
  rw [hstored] at h1
  have h2 : stored = mergeMeal old name description ate_at is_diet old :=
    Option.some.inj h1
  subst h2
  refine ⟨?_, ?_, ?_, ?_, ?_⟩
  · rintro (rfl | rfl) <;> simp [mergeMeal, strOr]
  · rintro (rfl | rfl) <;> simp [mergeMeal, strOr]
  · rintro (rfl | rfl) <;> simp [mergeMeal, dateOr]
  · rintro (rfl | rfl) <;> simp [mergeMeal, boolOr]
  · rw [updateMeal_found st sid id name description ate_at (some false) u old hu hold,
      updateMeal_found st sid id name description ate_at none u old hu hold]
    have h3 : mergeMeal old name description ate_at (some false) =
        mergeMeal old name description ate_at none := by
      funext m
      simp [mergeMeal, boolOr]
    rw [h3]

theorem c4_witness :
    ((none = (none : Option String) ∨ (none : Option String) = some "") →
      wMeal.name = wMeal.name) ∧
    ((none = (none : Option String) ∨ (none : Option String) = some "") →
      wMeal.description = wMeal.description) ∧
    ((none = (none : Option String) ∨ (none : Option String) = some "") →
      wMeal.ate_at = wMeal.ate_at) ∧
    ((some false = (none : Option Bool) ∨ some false = some false) →
      wMeal.is_diet = wMeal.is_diet) ∧
    updateMeal wStore "s1" "m1" none none none (some false) =
      updateMeal wStore "s1" "m1" none none none none :=
  c4_falsy_fields_keep_previous wStore "s1" "m1" wUser wMeal wMeal none none none
    (some false) (by decide) (by decide) (by decide)

/-- C5: ownership isolation. If caller A's session resolves to user `a`,
user `b` is a different user, and every meal carrying the requested id is
owned by `b`, then A's get-by-id returns an absent `meal`, A's update
leaves the store unchanged, and A's delete leaves the meal present. -/
theorem c5_ownership_isolation (st : Store) (sidA : String) (a b : User)
    (id : String) (m : Meal)
    (ha : resolveUser st sidA = some a) (hab : a.id ≠ b.id)
    (hm : m ∈ st.meals) (hmid : m.id = id) (hown : m.user_id = some b.id)
    (hallid : ∀ m2 ∈ st.meals, m2.id = id → m2.user_id = some b.id) :
    getMealById st sidA id = some none ∧
    (∀ (name description ate_at : Option String) (is_diet : Option Bool),
      (updateMeal st sidA id name description ate_at is_diet).1 = st) ∧
    m ∈ (deleteMeal st sidA id).1.meals := by
  have hba : b.id ≠ a.id := Ne.symm hab
  have hnone : st.meals.find? (mealMatch id a.id) = none := by
    rw [List.find?_eq_none]
    intro x hx hmx
    simp only [mealMatch, Bool.and_eq_true, beq_iff_eq] at hmx
    have h2 := hallid x hx hmx.1
    rw [hmx.2] at h2
    exact hab (Option.some.inj h2)
  refine ⟨?_, ?_, ?_⟩
  · rw [getMealById_resolved st sidA id a ha, hnone]
  · intro name description ate_at is_diet
    rw [updateMeal_not_found st sidA id name description ate_at is_diet a ha hnone]
  · rw [deleteMeal_resolved st sidA id a ha]
    refine List.mem_filter.2 ⟨hm, ?_⟩
    simp [mealMatch, hown, hmid, hba]

theorem c5_witness :
    getMealById wStore "s1" "m3" = some none ∧
    (∀ (name description ate_at : Option String) (is_diet : Option Bool),
      (updateMeal wStore "s1" "m3" name description ate_at is_diet).1 = wStore) ∧
    wMealB ∈ (deleteMeal wStore "s1" "m3").1.meals :=
  c5_ownership_isolation wStore "s1" wUser wUserB "m3" wMealB (by decide) (by decide)
    (by decide) (by decide) (by decide) (by decide)

/-- C6: in every store state reachable by the ledger operations, every meal
row has a non-null `user_id` referring to an existing user row. The
middleware `checkSessionIdExists` is modelled from the spec as rejecting
unresolvable session cookies before the handler, so a meal-create whose
cookie matches no user leaves the store unchanged and preserves the
invariant. -/
theorem c6_reachable_meals_owned (st : Store) (h : Reachable st) : mealsOwned st := by
  induction h with
  | init =>
    intro m hm
    cases hm
  | step_createUser st newId sid name email birthDate hr ih =>
    exact mealsOwned_createUser st newId sid name email birthDate ih
  | step_createMeal st sid newId name description ate_at is_diet hr ih =>
    exact mealsOwned_createMeal st sid newId name description ate_at is_diet ih
  | step_updateMeal st sid id name description ate_at is_diet hr ih =>
    exact mealsOwned_updateMeal st sid id name description ate_at is_diet ih
  | step_deleteMeal st sid id hr ih =>
    exact mealsOwned_deleteMeal st sid id ih

def c6WitnessStore : Store :=
  createMeal (createUser ⟨[], []⟩ "u1" "s1" "alice" "alice@mail" "1990-01-01")
    "s1" "m1" "lunch" "rice" "2024-01-01" true

theorem c6_witness : mealsOwned c6WitnessStore :=
  c6_reachable_meals_owned c6WitnessStore
    (Reachable.step_createMeal _ "s1" "m1" "lunch" "rice" "2024-01-01" true
      (Reachable.step_createUser _ "u1" "s1" "alice" "alice@mail" "1990-01-01"
        Reachable.init))

/-- C7 counterexample: on a concrete owned meal, the PATCH response's
`meal` field is the update's affected-row count, not the updated meal
record with the merged field values. -/
theorem c7_counterexample :
    (updateMeal wStore "s1" "m1" (some "dinner") none none none).2.2 ≠
      some (PatchMealValue.row { wMeal with name := "dinner" }) ∧
    (updateMeal wStore "s1" "m1" (some "dinner") none none none).2.2 =
      some (PatchMealValue.rowsAffected 1) := by
  constructor
  · decide
  · decide

/-- C7 amended: on a PATCH of an owned meal (exactly one row matches id and
owner), the response has status 200 and its body's `meal` field is the
number of rows updated, namely 1 — not the updated meal record. -/
theorem c7_amended_returns_count (st : Store) (sid id : String) (u : User)
    (name description ate_at : Option String) (is_diet : Option Bool)
    (hu : resolveUser st sid = some u)
    (hcount : st.meals.countP (mealMatch id u.id) = 1) :
    (updateMeal st sid id name description ate_at is_diet).2.1 = 200 ∧
    (updateMeal st sid id name description ate_at is_diet).2.2 =
      some (PatchMealValue.rowsAffected 1) := by
  have hpos : 0 < st.meals.countP (mealMatch id u.id) := by omega
  have hex : ∃ m ∈ st.meals, mealMatch id u.id m := List.countP_pos_iff.1 hpos
  have hsome : (st.meals.find? (mealMatch id u.id)).isSome := by
    rw [List.find?_isSome]
    obtain ⟨m, hm, hpm⟩ := hex
    exact ⟨m, hm, hpm⟩
  obtain ⟨old, hold⟩ := Option.isSome_iff_exists.1 hsome
  rw [updateMeal_found st sid id name description ate_at is_diet u old hu hold]
  exact ⟨rfl, by rw [hcount]⟩

theorem c7_witness :
    (updateMeal wStore "s1" "m2" (some "brunch") none none none).2.1 = 200 ∧
    (updateMeal wStore "s1" "m2" (some "brunch") none none none).2.2 =
      some (PatchMealValue.rowsAffected 1) :=
  c7_amended_returns_count wStore "s1" "m2" wUser (some "brunch") none none none
    (by decide) (by decide)

/-- C8: deleting an owned meal responds 204 (and responds 204 for any id,
matched or not), and a subsequent get-by-id with the same session and id
returns an absent `meal`. -/
theorem c8_delete_then_get_absent (st : Store) (sid id : String) (u : User) (m : Meal)
    (hu : resolveUser st sid = some u) (hm : m ∈ st.meals) (hid : m.id = id)
    (hown : m.user_id = some u.id) :
    (deleteMeal st sid id).2 = 204 ∧
    (∀ id2 : String, (deleteMeal st sid id2).2 = 204) ∧
    getMealById (deleteMeal st sid id).1 sid id = some none := by
  have hdel := deleteMeal_resolved st sid id u hu
  refine ⟨by rw [hdel], fun id2 => by rw [deleteMeal_resolved st sid id2 u hu], ?_⟩
  have hres2 : resolveUser (deleteMeal st sid id).1 sid = some u := by
    rw [resolveUser_deleteMeal st sid sid id]
    exact hu
  rw [getMealById_resolved ((deleteMeal st sid id).1) sid id u hres2]
  have hmeals : (deleteMeal st sid id).1.meals =
      st.meals.filter (fun m2 => !(mealMatch id u.id m2)) := by
    rw [hdel]
  rw [hmeals]
  have hfind : (st.meals.filter (fun m2 => !(mealMatch id u.id m2))).find?
      (mealMatch id u.id) = none := by
    rw [List.find?_eq_none]
    intro x hx
    have h2 := (List.mem_filter.1 hx).2
    simp only [Bool.not_eq_eq_eq_not, Bool.not_true] at h2
    simp [h2]
  rw [hfind]

theorem c8_witness :
    (deleteMeal wStore "s1" "m1").2 = 204 ∧
    (∀ id2 : String, (deleteMeal wStore "s1" id2).2 = 204) ∧
    getMealById (deleteMeal wStore "s1" "m1").1 "s1" "m1" = some none :=
  c8_delete_then_get_absent wStore "s1" "m1" wUser wMeal (by decide) (by decide)
    (by decide) (by decide)

/-- C9: the registration cookie is named `sessionId` with path `/`, but its
numeric `maxAge` is `1000 * 60 * 60 * 24 * 7 = 604800000` — seven days in
milliseconds — while the cookie attribute's unit is seconds, in which
seven days would be `60 * 60 * 24 * 7 = 604800`. -/
theorem c9_cookie_maxage (sessionId : String) :
    (registrationCookie sessionId).name = "sessionId" ∧
    (registrationCookie sessionId).path = "/" ∧
    (registrationCookie sessionId).maxAge = 604800000 ∧
    (registrationCookie sessionId).maxAge ≠ 60 * 60 * 24 * 7 :=
  ⟨rfl, rfl, rfl, by simp [registrationCookie]⟩

/-- C10: update-by-id and delete-by-id change at most the single meal row
matching both the given id and the caller's user id. Update keeps the user
table and the meal count, and keeps every position whose row does not match
identical; delete keeps the user table and the multiplicity of every
non-matching row; and (ids being unique) at most one row can match. -/
theorem c10_update_delete_frame (st : Store) (sid id : String) (u : User)
    (name description ate_at : Option String) (is_diet : Option Bool)
    (hu : resolveUser st sid = some u)
    (hnodup : (st.meals.map Meal.id).Nodup) :
    (updateMeal st sid id name description ate_at is_diet).1.users = st.users ∧
    (updateMeal st sid id name description ate_at is_diet).1.meals.length =
      st.meals.length ∧
    (∀ (i : Nat) (m2 : Meal), st.meals[i]? = some m2 →
      mealMatch id u.id m2 = false →
      (updateMeal st sid id name description ate_at is_diet).1.meals[i]? = some m2) ∧
    (deleteMeal st sid id).1.users = st.users ∧
    (∀ m2 : Meal, mealMatch id u.id m2 = false →
      (deleteMeal st sid id).1.meals.count m2 = st.meals.count m2) ∧
    (∀ m2 ∈ (deleteMeal st sid id).1.meals, m2 ∈ st.meals) ∧
    st.meals.countP (mealMatch id u.id) ≤ 1 := by
  have hdel := deleteMeal_resolved st sid id u hu
  refine ⟨updateMeal_users st sid id name description ate_at is_diet, ?_, ?_,
    deleteMeal_users st sid id, ?_, ?_,
    countP_mealMatch_le_one st.meals id u.id hnodup⟩
  · cases hfind : st.meals.find? (mealMatch id u.id) with
    | none => rw [updateMeal_not_found st sid id name description ate_at is_diet u hu hfind]
    | some old =>
      rw [updateMeal_found st sid id name description ate_at is_diet u old hu hfind]
      exact List.length_map _ _
  · intro i m2 hm2 hfalse
    cases hfind : st.meals.find? (mealMatch id u.id) with
    | none =>
      rw [updateMeal_not_found st sid id name description ate_at is_diet u hu hfind]
      exact hm2
    | some old =>
      have hmeals : (updateMeal st sid id name description ate_at is_diet).1.meals =
          st.meals.map (fun m =>
            if mealMatch id u.id m then mergeMeal old name description ate_at is_diet m
            else m) := by
        rw [updateMeal_found st sid id name description ate_at is_diet u old hu hfind]
      rw [hmeals, List.getElem?_map, hm2]
      simp [hfalse]
  · intro m2 hfalse
    have hmeals : (deleteMeal st sid id).1.meals =
        st.meals.filter (fun m => !(mealMatch id u.id m)) := by
      rw [hdel]
    rw [hmeals]
    refine List.count_filter ?_
    simp [hfalse]
  · intro m2 hm2
    have hmeals : (deleteMeal st sid id).1.meals =
        st.meals.filter (fun m => !(mealMatch id u.id m)) := by
      rw [hdel]
    rw [hmeals] at hm2
    exact (List.mem_filter.1 hm2).1

theorem c10_witness :
    (updateMeal wStore "s1" "m1" (some "dinner") none none none).1.users =
      wStore.users ∧
    (updateMeal wStore "s1" "m1" (some "dinner") none none none).1.meals.length =
      wStore.meals.length ∧
    (∀ (i : Nat) (m2 : Meal), wStore.meals[i]? = some m2 →
      mealMatch "m1" wUser.id m2 = false →
      (updateMeal wStore "s1" "m1" (some "dinner") none none none).1.meals[i]? =
        some m2) ∧
    (deleteMeal wStore "s1" "m1").1.users = wStore.users ∧
    (∀ m2 : Meal, mealMatch "m1" wUser.id m2 = false →
      (deleteMeal wStore "s1" "m1").1.meals.count m2 = wStore.meals.count m2) ∧
    (∀ m2 ∈ (deleteMeal wStore "s1" "m1").1.meals, m2 ∈ wStore.meals) ∧
    wStore.meals.countP (mealMatch "m1" wUser.id) ≤ 1 :=
  c10_update_delete_frame wStore "s1" "m1" wUser (some "dinner") none none none
    (by decide) (by decide)
